import Mathlib

/-!
Verification of the interactive synthesis-review-execution loop of the
gptxt command-line text-processing assistant (src/main.rs).

The pure logic of the program is embedded shallowly:

* `replace2`, `normalizeChars`, `normalizeStr` model the result
  normalization performed by `execute_program`;
* `Sandbox` and `execute_program` model the sandboxed script executor,
  with the embedded Python interpreter (an external collaborator per the
  specification) abstracted as an oracle describing what its compile, run
  and variable-lookup operations produce for one input/script pair;
* `promptLoop` models the raw-mode key reader `prompt`;
* `postProcess` and `generate_program_post` model the post-processing of
  the completion response inside `generate_program`;
* `edit_program_with_vi` models the external-editor interaction;
* `ConState`, `step` and `runLoop` model the session controller
  `execute_program_loop` as an explicit state machine whose external
  collaborators (synthesizer, executor, editor) are supplied per step by
  a `StepEnv` oracle.
-/

/-- Rust `str::replace` specialized to a fixed two-character pattern
`a, b`, each occurrence replaced by the single character `r`: leftmost,
non-overlapping scan. -/
def replace2 (a b r : Char) : List Char → List Char
  | [] => []
  | [c] => [c]
  | c1 :: c2 :: rest =>
    if c1 = a ∧ c2 = b then r :: replace2 a b r rest
    else c1 :: replace2 a b r (c2 :: rest)

/-- The normalization `execute_program` applies to the extracted result
string: `result_str.replace("\\r", "\r").replace("\\n", "\n")`. -/
def normalizeChars (s : List Char) : List Char :=
  replace2 '\\' 'n' '\n' (replace2 '\\' 'r' '\r' s)

/-- `normalizeChars` lifted to `String`, as used by `execute_program`. -/
def normalizeStr (s : String) : String :=
  String.mk (normalizeChars s.data)

/-- One-pass normalization stated from the specification's words: each
literal two-character sequence backslash-r becomes a carriage return,
each literal two-character sequence backslash-n becomes a line feed, and
nothing else changes.  To be compared with `normalizeChars`, which is
translated from the source. -/
def specNormalize : List Char → List Char
  | [] => []
  | [c] => [c]
  | c1 :: c2 :: rest =>
    if c1 = '\\' ∧ c2 = 'r' then '\r' :: specNormalize rest
    else if c1 = '\\' ∧ c2 = 'n' then '\n' :: specNormalize rest
    else c1 :: specNormalize (c2 :: rest)

/-- Whether the two-character sequence `a, b` occurs anywhere in the
list. -/
def containsPat (a b : Char) : List Char → Bool
  | [] => false
  | [_] => false
  | c1 :: c2 :: rest => (c1 == a && c2 == b) || containsPat a b (c2 :: rest)

/-- The value bound to `result` in the interpreter scope, seen through
the two operations the executor uses on it: conversion to a Rust
`String` (`try_into_value`), and the class name used in the conversion
failure message. -/
structure PyValue where
  asString : Option String
  className : String

/-- Oracle for the embedded interpreter, an external collaborator per
the specification: what `vm.compile`, `vm.run_code_obj` and the lookup
of `result` in the scope produce for one input/script pair.
`Except.error` carries the compile error message, respectively the fully
rendered exception text produced by `vm.write_exception`. -/
structure Sandbox where
  compileResult : Except String Unit
  runResult : Except String Unit
  resultVar : Option PyValue

/-- Failure taxonomy of `execute_program` (Rust enum `ExecuteError`). -/
inductive ExecuteError
  | CompileError (msg : String)
  | ExecutionError (trace : String)
  | ResultNotFound
  | ResultConversionError (typeName : String)
  deriving DecidableEq

/-- The `Display` implementation for `ExecuteError` (quote characters of
the original message text elided). -/
def ExecuteError.render : ExecuteError → String
  | ExecuteError.CompileError e => "Error compiling Python program: " ++ e
  | ExecuteError.ExecutionError e => "Error executing Python program: " ++ e
  | ExecuteError.ResultNotFound => "Error: result variable not found"
  | ExecuteError.ResultConversionError t =>
      "Error: Failed to convert result PyObject to a Rust String; type is: " ++ t

/-- `execute_program`: compile the script, run it, look up `result`,
convert it to a string, normalize escapes; each failure mapped to its
`ExecuteError` variant. -/
def execute_program (sb : Sandbox) : Except ExecuteError String :=
  match sb.compileResult with
  | Except.error msg => Except.error (ExecuteError.CompileError msg)
  | Except.ok _ =>
    match sb.runResult with
    | Except.error trace => Except.error (ExecuteError.ExecutionError trace)
    | Except.ok _ =>
      match sb.resultVar with
      | none => Except.error ExecuteError.ResultNotFound
      | some v =>
        match v.asString with
        | none => Except.error (ExecuteError.ResultConversionError v.className)
        | some s => Except.ok (normalizeStr s)

/-- The line appended by `generate_program` when `jsonify_one_line` is
set. -/
def jsonOneLineSuffix : String :=
  "\nimport json; result = json.dumps(result, separators=(',', ':'))"

/-- The line appended by `generate_program` when only `jsonify` is
set. -/
def jsonSuffix : String := "\nimport json; result = json.dumps(result)"

/-- Post-processing of the completion choice text in `generate_program`:
trim surrounding whitespace, then optionally append the JSON
reassignment line selected by the flags. -/
def postProcess (text : String) (jsonify jsonifyOneLine : Bool) : String :=
  let program := text.trim
  if jsonifyOneLine then program ++ jsonOneLineSuffix
  else if jsonify then program ++ jsonSuffix
  else program

/-- One completion choice of the provider response. -/
structure Choice where
  text : String

/-- `generate_program` after a successful completion response: the
`choices.first().unwrap()` on an empty choice list panics, modelled as
`none`; otherwise the first choice is post-processed. -/
def generate_program_post (choices : List Choice) (jsonify jsonifyOneLine : Bool) :
    Option String :=
  match choices with
  | [] => none
  | c :: _ => some (postProcess c.text jsonify jsonifyOneLine)

/-- A decoded terminal key event as `prompt` sees it: a character key
with its control-modifier flag, or any other key. -/
inductive KeyInput
  | charKey (c : Char) (ctrl : Bool)
  | otherKey
  deriving DecidableEq

/-- Outcome of `prompt` on a finite stream of key events, together with
the raw-mode state at that point (`true` means the terminal is still in
raw mode). -/
inductive PromptOutcome
  | returned (c : Char) (rawMode : Bool)
  | exited (code : Nat) (rawMode : Bool) (noticed : Bool)
  | polling (rawMode : Bool)
  deriving DecidableEq

/-- The characters accepted by the first match arm of `prompt`. -/
def acceptedChar (c : Char) : Bool :=
  c == 'y' || c == 'q' || c == 'r' || c == 'e'

/-- The key-polling loop of `prompt`: raw mode is enabled on entry; an
accepted character breaks the loop and raw mode is disabled before the
function returns; Ctrl+C and Ctrl+Backslash disable raw mode, print a
notice and exit the process with code 0; every other key is skipped and
polling continues. -/
def promptLoop : List KeyInput → PromptOutcome
  | [] => PromptOutcome.polling true
  | KeyInput.charKey c ctrl :: rest =>
    if acceptedChar c then PromptOutcome.returned c false
    else if c == 'c' && ctrl then PromptOutcome.exited 0 false true
    else if c == '\\' && ctrl then PromptOutcome.exited 0 false true
    else promptLoop rest
  | KeyInput.otherKey :: rest => promptLoop rest

/-- A key that `prompt` ignores: neither accepted nor an interrupt
combination. -/
def ignoredKey : KeyInput → Bool
  | KeyInput.charKey c ctrl =>
      !(acceptedChar c) && !(c == 'c' && ctrl) && !(c == '\\' && ctrl)
  | KeyInput.otherKey => true

/-- Exit-path discipline of `prompt`: a returned command or a process
exit leaves the terminal out of raw mode, and an exit carries code 0 and
printed its notice. -/
def exitsClean : PromptOutcome → Bool
  | PromptOutcome.returned _ raw => !raw
  | PromptOutcome.exited code raw noticed => !raw && code == 0 && noticed
  | PromptOutcome.polling _ => true

/-- Alternate-screen state of the two output streams. -/
structure ScreenState where
  stdoutAlt : Bool
  stderrAlt : Bool
  deriving DecidableEq

/-- Behaviour of the external vi subprocess on one invocation: its exit
status and the temporary-file content after it returns. -/
structure ViResult where
  status : Int
  fileAfter : String

/-- The error message built when vi exits with a non-zero status; it
carries that status. -/
def viErrMsg (status : Int) : String :=
  "vi exited with an error: " ++ toString status

/-- `edit_program_with_vi`: write the program to a temporary file, enter
the alternate screen on stdout and stderr, run vi; on a non-zero exit
status return the error at once — note that this early return precedes
the LeaveAlternateScreen calls, so the screen state is NOT reverted on
that path; on success leave the alternate screen on both streams,
re-read the file and trim surrounding whitespace. -/
def edit_program_with_vi (_program : String) (vi : ViResult) (_scr : ScreenState) :
    Except String String × ScreenState :=
  let scrIn : ScreenState := ⟨true, true⟩
  if vi.status ≠ 0 then
    (Except.error (viErrMsg vi.status), scrIn)
  else
    (Except.ok vi.fileAfter.trim, ⟨false, false⟩)

/-- Control phase of `execute_program_loop`: the reviewing prompt, the
nested failure-recovery prompt, or one of the three ways the loop
ends (successful run, quit, duplicate-regeneration rephrase message). -/
inductive Phase
  | Reviewing
  | Recovering
  | DoneSuccess
  | DoneQuit
  | DoneRephrase
  deriving DecidableEq

/-- State of `execute_program_loop`: the current program text, the
history of accepted candidates, the edited-provenance flag, the control
phase, and the observable effects (lines printed to each stream, screen
state).  Modelled from the spec: the print macros live in src/util.rs,
which is absent from the sources; per the specification every prompt,
preview and diagnostic goes to the diagnostic stream, so they are
embedded as appends to `stderrLines`. -/
structure ConState where
  program : String
  hist : List String
  edited : Bool
  phase : Phase
  stdoutLines : List String
  stderrLines : List String
  screen : ScreenState

/-- Per-iteration oracle for the loop: the program the synthesizer would
return, the outcome `execute_program` would produce, and the behaviour
of the vi subprocess. -/
structure StepEnv where
  gen : String
  execResult : Except ExecuteError String
  vi : ViResult

/-- The duplicate-regeneration message (quote characters elided). -/
def rephraseMsg : String :=
  "Re-generated program is identical to previously generated program. Please rephrase your task."

/-- The shared regenerate handler: the r arm of both the reviewing loop
and the failure-recovery loop.  A candidate equal to any history entry
ends the session with the rephrase message; otherwise it is appended to
history and becomes current. -/
def regenStep (st : ConState) (newProg : String) : ConState :=
  if newProg ∈ st.hist then
    { st with phase := Phase.DoneRephrase,
              stderrLines := st.stderrLines ++ [rephraseMsg] }
  else
    { st with program := newProg,
              hist := st.hist ++ [newProg],
              phase := Phase.Reviewing }

/-- The shared edit handler: the e arm of both loops.  On success the
current program is replaced by the trimmed edited text and the edited
flag is set; on failure the error is reported and the state is otherwise
unchanged (the phase is kept, so the reviewing loop stays reviewing and
the recovery loop keeps recovering). -/
def editStep (st : ConState) (vi : ViResult) : ConState :=
  match edit_program_with_vi st.program vi st.screen with
  | (Except.ok newText, scr) =>
      { st with program := newText, edited := true, screen := scr,
                phase := Phase.Reviewing }
  | (Except.error e, scr) =>
      { st with screen := scr,
                stderrLines := st.stderrLines ++
                  ["Error editing program with vi: " ++ e] }

/-- The y arm of the reviewing loop: run the program; success prints the
result to stdout and ends the loop, failure reports the rendered error
to stderr and enters the failure-recovery loop. -/
def runStep (st : ConState) (res : Except ExecuteError String) : ConState :=
  match res with
  | Except.ok v =>
      { st with stdoutLines := st.stdoutLines ++ [v],
                phase := Phase.DoneSuccess }
  | Except.error e =>
      { st with stderrLines := st.stderrLines ++ [ExecuteError.render e],
                phase := Phase.Recovering }

/-- `show_generated_program`: label the program by provenance, reset the
edited flag, and print the program to the diagnostic stream. -/
def displayStep (st : ConState) : ConState :=
  { st with edited := false,
            stderrLines := st.stderrLines ++
              [if st.edited then "Edited program:" else "Generated program:",
               st.program] }

/-- Command dispatch of `execute_program_loop`, covering the reviewing
prompt and the nested failure-recovery prompt. -/
def step (st : ConState) (c : Char) (env : StepEnv) : ConState :=
  match st.phase with
  | Phase.Reviewing =>
    if c = 'y' then runStep st env.execResult
    else if c = 'r' then regenStep st env.gen
    else if c = 'e' then editStep st env.vi
    else if c = 'q' then { st with phase := Phase.DoneQuit }
    else { st with stderrLines := st.stderrLines ++
            ["Invalid input; enter y, q, r, or e."] }
  | Phase.Recovering =>
    if c = 'r' then regenStep st env.gen
    else if c = 'e' then editStep st env.vi
    else if c = 'q' then { st with phase := Phase.DoneQuit }
    else { st with stderrLines := st.stderrLines ++
            ["Invalid input; enter r, q, or e."] }
  | _ => st

/-- Loop state after the initial synthesis: the first candidate is
current, history is seeded with it, nothing has been printed to either
stream, and both streams show the normal screen. -/
def initState (g0 : String) : ConState :=
  { program := g0, hist := [g0], edited := false, phase := Phase.Reviewing,
    stdoutLines := [], stderrLines := [], screen := ⟨false, false⟩ }

/-- Drive the loop over a finite stream of commands with their oracles.
Each reviewing iteration first displays the current program; the
recovery prompt re-prompts without re-displaying; terminal phases absorb
all remaining input. -/
def runLoop : ConState → List (Char × StepEnv) → ConState
  | st, [] => st
  | st, (c, env) :: rest =>
    match st.phase with
    | Phase.Reviewing => runLoop (step (displayStep st) c env) rest
    | Phase.Recovering => runLoop (step st c env) rest
    | _ => st

/-- Primary-stream exactness invariant: either the loop has ended with a
successful run and stdout holds exactly the one result line, or stdout
is empty. -/
def stdoutInv (st : ConState) : Prop :=
  (st.phase = Phase.DoneSuccess ∧ ∃ v, st.stdoutLines = [v]) ∨
  (st.phase ≠ Phase.DoneSuccess ∧ st.stdoutLines = [])

/-- A two-character pattern starting with a backslash cannot fire at a
head character that is not a backslash. -/
theorem replace2_cons_ne (b r c : Char) (L : List Char) (h : ¬ c = '\\') :
    replace2 '\\' b r (c :: L) = c :: replace2 '\\' b r L := by
  cases L with
  | nil => simp [replace2]
  | cons x xs => simp [replace2, h]

/-- `specNormalize` likewise passes over a head character that is not a
backslash. -/
theorem specNormalize_cons_ne (c : Char) (L : List Char) (h : ¬ c = '\\') :
    specNormalize (c :: L) = c :: specNormalize L := by
  cases L with
  | nil => simp [specNormalize]
  | cons x xs => simp [specNormalize, h]

/-- The backslash-r replacement never leaves the letter n at the head of
its output on a backslash-headed input: the head is either the inserted
carriage return or the kept backslash. -/
theorem replace2_r_head (rest : List Char) :
    ¬ (replace2 '\\' 'r' '\r' ('\\' :: rest)).head? = some 'n' := by
  cases rest with
  | nil => simp [replace2]
  | cons x xs =>
    by_cases hx : x = 'r'
    · subst hx
      simp [replace2]
    · simp [replace2, hx]

/-- The backslash-n replacement keeps a leading backslash whenever the
following character is not the letter n. -/
theorem replace2_n_cons_backslash (X : List Char) (h : ¬ X.head? = some 'n') :
    replace2 '\\' 'n' '\n' ('\\' :: X) = '\\' :: replace2 '\\' 'n' '\n' X := by
  cases X with
  | nil => simp [replace2]
  | cons x xs =>
    have hx : ¬ x = 'n' := by simpa using h
    simp [replace2, hx]

/-- Refinement: the two sequential replaces of the source equal the
one-pass normalization stated from the specification. -/
theorem normalize_eq_spec : (s : List Char) → normalizeChars s = specNormalize s
  | [] => rfl
  | [_] => rfl
  | c1 :: c2 :: rest => by
    by_cases h1 : c1 = '\\'
    · subst h1
      by_cases h2 : c2 = 'r'
      · subst h2
        have ih := normalize_eq_spec rest
        unfold normalizeChars at ih ⊢
        have e1 : replace2 '\\' 'r' '\r' ('\\' :: 'r' :: rest)
            = '\r' :: replace2 '\\' 'r' '\r' rest := by
          simp [replace2]
        have e2 := replace2_cons_ne 'n' '\n' '\r' (replace2 '\\' 'r' '\r' rest)
          (by decide)
        have e3 : specNormalize ('\\' :: 'r' :: rest) = '\r' :: specNormalize rest := by
          simp [specNormalize]
        rw [e1, e2, e3, ih]
      · by_cases h3 : c2 = 'n'
        · subst h3
          have ih := normalize_eq_spec rest
          unfold normalizeChars at ih ⊢
          have e1 : replace2 '\\' 'r' '\r' ('\\' :: 'n' :: rest)
              = '\\' :: 'n' :: replace2 '\\' 'r' '\r' rest := by
            rw [show replace2 '\\' 'r' '\r' ('\\' :: 'n' :: rest)
                = '\\' :: replace2 '\\' 'r' '\r' ('n' :: rest) from by simp [replace2],
              replace2_cons_ne 'r' '\r' 'n' rest (by decide)]
          have e3 : replace2 '\\' 'n' '\n' ('\\' :: 'n' :: replace2 '\\' 'r' '\r' rest)
              = '\n' :: replace2 '\\' 'n' '\n' (replace2 '\\' 'r' '\r' rest) := by
            simp [replace2]
          have e4 : specNormalize ('\\' :: 'n' :: rest) = '\n' :: specNormalize rest := by
            simp [specNormalize]
          rw [e1, e3, e4, ih]
        · have ih := normalize_eq_spec (c2 :: rest)
          unfold normalizeChars at ih ⊢
          have e1 : replace2 '\\' 'r' '\r' ('\\' :: c2 :: rest)
              = '\\' :: replace2 '\\' 'r' '\r' (c2 :: rest) := by
            simp [replace2, h2]
          have hhead : ¬ (replace2 '\\' 'r' '\r' (c2 :: rest)).head? = some 'n' := by
            by_cases hb : c2 = '\\'
            · subst hb
              exact replace2_r_head rest
            · rw [replace2_cons_ne 'r' '\r' c2 rest hb]
              simpa using h3
          have e2 := replace2_n_cons_backslash (replace2 '\\' 'r' '\r' (c2 :: rest)) hhead
          have e3 : specNormalize ('\\' :: c2 :: rest)
              = '\\' :: specNormalize (c2 :: rest) := by
            simp [specNormalize, h2, h3]
          rw [e1, e2, e3, ih]
    · have ih := normalize_eq_spec (c2 :: rest)
      unfold normalizeChars at ih ⊢
      rw [replace2_cons_ne 'r' '\r' c1 (c2 :: rest) h1,
        replace2_cons_ne 'n' '\n' c1 (replace2 '\\' 'r' '\r' (c2 :: rest)) h1,
        specNormalize_cons_ne c1 (c2 :: rest) h1, ih]

/-- A list without any occurrence of the two escape pairs is left
untouched by the one-pass normalization. -/
theorem specNormalize_id : (s : List Char) →
    containsPat '\\' 'r' s = false → containsPat '\\' 'n' s = false →
    specNormalize s = s
  | [], _, _ => rfl
  | [_], _, _ => rfl
  | c1 :: c2 :: rest, hr, hn => by
    by_cases h1 : c1 = '\\'
    · subst h1
      by_cases h2 : c2 = 'r'
      · subst h2
        simp [containsPat] at hr
      · by_cases h3 : c2 = 'n'
        · subst h3
          simp [containsPat] at hn
        · have hr2 : containsPat '\\' 'r' (c2 :: rest) = false := by
            simpa [containsPat, h2] using hr
          have hn2 : containsPat '\\' 'n' (c2 :: rest) = false := by
            simpa [containsPat, h3] using hn
          rw [show specNormalize ('\\' :: c2 :: rest)
              = '\\' :: specNormalize (c2 :: rest) from by simp [specNormalize, h2, h3],
            specNormalize_id (c2 :: rest) hr2 hn2]
    · have hr2 : containsPat '\\' 'r' (c2 :: rest) = false := by
        simpa [containsPat, h1] using hr
      have hn2 : containsPat '\\' 'n' (c2 :: rest) = false := by
        simpa [containsPat, h1] using hn
      rw [specNormalize_cons_ne c1 (c2 :: rest) h1,
        specNormalize_id (c2 :: rest) hr2 hn2]

/-- C3: the normalization performed by `execute_program` replaces each
literal two-character backslash-r sequence with a carriage return and
each literal backslash-n sequence with a line feed and changes nothing
else (it coincides with the one-pass specification normalization); in
particular a result containing no such two-character sequence — e.g. one
that already contains real newline characters — is returned unchanged. -/
theorem normalize_escapes_exactly (s : List Char) :
    normalizeChars s = specNormalize s ∧
    (containsPat '\\' 'r' s = false ∧ containsPat '\\' 'n' s = false →
      normalizeChars s = s) := by
  refine ⟨normalize_eq_spec s, fun h => ?_⟩
  rw [normalize_eq_spec s, specNormalize_id s h.1 h.2]

/-- Witness for C3: a result already containing a real newline (and no
literal escape pair) is returned unchanged. -/
theorem normalize_escapes_exactly_witness :
    (containsPat '\\' 'r' ['a', '\n', 'b'] = false ∧
      containsPat '\\' 'n' ['a', '\n', 'b'] = false) ∧
    normalizeChars ['a', '\n', 'b'] = ['a', '\n', 'b'] :=
  ⟨by decide, (normalize_escapes_exactly ['a', '\n', 'b']).2 (by decide)⟩

/-- C2: `execute_program` returns exactly one of the five outcomes:
CompileError carrying the compile message when compilation fails;
ExecutionError carrying the full rendered exception text, verbatim, when
the run raises; ResultNotFound when after a successful run no `result`
variable exists; ResultConversionError carrying the class name when
`result` cannot be converted to a string; otherwise the normalized
success value. -/
theorem execute_program_taxonomy (sb : Sandbox) :
    (∃ m, sb.compileResult = Except.error m ∧
      execute_program sb = Except.error (ExecuteError.CompileError m)) ∨
    (sb.compileResult = Except.ok () ∧
      ∃ t, sb.runResult = Except.error t ∧
        execute_program sb = Except.error (ExecuteError.ExecutionError t)) ∨
    (sb.compileResult = Except.ok () ∧ sb.runResult = Except.ok () ∧
      sb.resultVar = none ∧
      execute_program sb = Except.error ExecuteError.ResultNotFound) ∨
    (∃ v, sb.compileResult = Except.ok () ∧ sb.runResult = Except.ok () ∧
      sb.resultVar = some v ∧ v.asString = none ∧
      execute_program sb = Except.error
        (ExecuteError.ResultConversionError v.className)) ∨
    (∃ v s, sb.compileResult = Except.ok () ∧ sb.runResult = Except.ok () ∧
      sb.resultVar = some v ∧ v.asString = some s ∧
      execute_program sb = Except.ok (normalizeStr s)) := by
  obtain ⟨cr, rr, rv⟩ := sb
  cases cr with
  | error m => exact Or.inl ⟨m, rfl, rfl⟩
  | ok u =>
    cases u
    cases rr with
    | error t => exact Or.inr (Or.inl ⟨rfl, t, rfl, rfl⟩)
    | ok u2 =>
      cases u2
      cases rv with
      | none => exact Or.inr (Or.inr (Or.inl ⟨rfl, rfl, rfl, rfl⟩))
      | some v =>
        obtain ⟨vs, vc⟩ := v
        cases vs with
        | none =>
          exact Or.inr (Or.inr (Or.inr (Or.inl ⟨⟨none, vc⟩, rfl, rfl, rfl, rfl, rfl⟩)))
        | some s =>
          exact Or.inr (Or.inr (Or.inr (Or.inr
            ⟨⟨some s, vc⟩, s, rfl, rfl, rfl, rfl, rfl⟩)))

/-- In the reviewing prompt, y dispatches to the run handler. -/
theorem step_rev_y (st : ConState) (env : StepEnv) (h : st.phase = Phase.Reviewing) :
    step st 'y' env = runStep st env.execResult := by
  simp [step, h]

/-- In the reviewing prompt, r dispatches to the regenerate handler. -/
theorem step_rev_r (st : ConState) (env : StepEnv) (h : st.phase = Phase.Reviewing) :
    step st 'r' env = regenStep st env.gen := by
  have hy : ¬ ('r' : Char) = 'y' := by decide
  simp [step, h, hy]

/-- In the reviewing prompt, e dispatches to the edit handler. -/
theorem step_rev_e (st : ConState) (env : StepEnv) (h : st.phase = Phase.Reviewing) :
    step st 'e' env = editStep st env.vi := by
  have hy : ¬ ('e' : Char) = 'y' := by decide
  have hr : ¬ ('e' : Char) = 'r' := by decide
  simp [step, h, hy, hr]

/-- In the recovery prompt, r dispatches to the regenerate handler. -/
theorem step_rec_r (st : ConState) (env : StepEnv) (h : st.phase = Phase.Recovering) :
    step st 'r' env = regenStep st env.gen := by
  simp [step, h]

/-- In the recovery prompt, e dispatches to the edit handler. -/
theorem step_rec_e (st : ConState) (env : StepEnv) (h : st.phase = Phase.Recovering) :
    step st 'e' env = editStep st env.vi := by
  have hr : ¬ ('e' : Char) = 'r' := by decide
  simp [step, h, hr]

/-- In the recovery prompt, q terminates the loop without error. -/
theorem step_rec_q (st : ConState) (env : StepEnv) (h : st.phase = Phase.Recovering) :
    step st 'q' env = { st with phase := Phase.DoneQuit } := by
  have hr : ¬ ('q' : Char) = 'r' := by decide
  have he : ¬ ('q' : Char) = 'e' := by decide
  simp [step, h, hr, he]

/-- In the recovery prompt, any other character only reports invalid
input and keeps recovering. -/
theorem step_rec_other (st : ConState) (env : StepEnv) (c : Char)
    (h : st.phase = Phase.Recovering)
    (hr : ¬ c = 'r') (he : ¬ c = 'e') (hq : ¬ c = 'q') :
    step st c env = { st with stderrLines := st.stderrLines ++
      ["Invalid input; enter r, q, or e."] } := by
  simp [step, h, hr, he, hq]

/-- C1: in either loop, when Regenerate is chosen and the new candidate
equals any history entry, the rephrase message is reported and the
session loop ends in the rephrase terminal phase; otherwise the new
candidate is appended to history, becomes current, and the loop returns
to reviewing. -/
theorem regenerate_progress_check (st : ConState) (env : StepEnv)
    (hph : st.phase = Phase.Reviewing ∨ st.phase = Phase.Recovering) :
    (env.gen ∈ st.hist →
      (step st 'r' env).phase = Phase.DoneRephrase ∧
      (step st 'r' env).stderrLines = st.stderrLines ++ [rephraseMsg] ∧
      (step st 'r' env).hist = st.hist) ∧
    (env.gen ∉ st.hist →
      (step st 'r' env).phase = Phase.Reviewing ∧
      (step st 'r' env).hist = st.hist ++ [env.gen] ∧
      (step st 'r' env).program = env.gen) := by
  have hstep : step st 'r' env = regenStep st env.gen := by
    rcases hph with h | h
    · exact step_rev_r st env h
    · exact step_rec_r st env h
  rw [hstep]
  constructor
  · intro hmem
    simp [regenStep, hmem]
  · intro hmem
    simp [regenStep, hmem]

/-- Witness for C1: regenerating the very first candidate again ends the
session in the rephrase phase. -/
theorem regenerate_progress_check_witness :
    ((initState "a").phase = Phase.Reviewing ∨
      (initState "a").phase = Phase.Recovering) ∧
    ("a" ∈ (initState "a").hist) ∧
    (step (initState "a") 'r' ⟨"a", Except.ok "", ⟨0, ""⟩⟩).phase
      = Phase.DoneRephrase :=
  ⟨Or.inl rfl, by simp [initState],
    ((regenerate_progress_check (initState "a") ⟨"a", Except.ok "", ⟨0, ""⟩⟩
      (Or.inl rfl)).1 (by simp [initState])).1⟩

/-- C4: a failed run never ends the loop by itself — the rendered error
is reported on the diagnostic stream and the controller enters the
recovery phase; a successful run prints the result to the primary stream
and ends the loop successfully; and the recovery prompt accepts exactly
r (regenerate), e (edit) and q (quit), any other character leaving the
recovery state unchanged apart from the invalid-input diagnostic. -/
theorem run_failure_policy (st : ConState) (env : StepEnv) (st2 : ConState)
    (c : Char) (env2 : StepEnv)
    (hph : st.phase = Phase.Reviewing) (hph2 : st2.phase = Phase.Recovering)
    (hcr : ¬ c = 'r') (hce : ¬ c = 'e') (hcq : ¬ c = 'q') :
    (∀ e, env.execResult = Except.error e →
      (step st 'y' env).phase = Phase.Recovering ∧
      (step st 'y' env).stdoutLines = st.stdoutLines ∧
      (step st 'y' env).stderrLines = st.stderrLines ++ [ExecuteError.render e]) ∧
    (∀ v, env.execResult = Except.ok v →
      (step st 'y' env).phase = Phase.DoneSuccess ∧
      (step st 'y' env).stdoutLines = st.stdoutLines ++ [v]) ∧
    (step st2 'r' env2 = regenStep st2 env2.gen ∧
      step st2 'e' env2 = editStep st2 env2.vi ∧
      (step st2 'q' env2).phase = Phase.DoneQuit) ∧
    ((step st2 c env2).phase = Phase.Recovering ∧
      (step st2 c env2).program = st2.program ∧
      (step st2 c env2).hist = st2.hist ∧
      (step st2 c env2).stdoutLines = st2.stdoutLines) := by
  refine ⟨?_, ?_, ⟨step_rec_r st2 env2 hph2, step_rec_e st2 env2 hph2, ?_⟩, ?_⟩
  · intro e he
    rw [step_rev_y st env hph]
    simp [runStep, he]
  · intro v hv
    rw [step_rev_y st env hph]
    simp [runStep, hv]
  · rw [step_rec_q st2 env2 hph2]
  · rw [step_rec_other st2 env2 c hph2 hcr hce hcq]
    exact ⟨hph2, rfl, rfl, rfl⟩

/-- Witness for C4: a compile error on run moves the loop into the
recovery phase, and an unrelated key leaves the recovery phase in
place. -/
theorem run_failure_policy_witness :
    (initState "a").phase = Phase.Reviewing ∧
    (⟨"a", ["a"], false, Phase.Recovering, [], [], ⟨false, false⟩⟩ :
      ConState).phase = Phase.Recovering ∧
    (step (initState "a") 'y'
      ⟨"g", Except.error (ExecuteError.CompileError "m"), ⟨0, ""⟩⟩).phase
      = Phase.Recovering ∧
    (step (⟨"a", ["a"], false, Phase.Recovering, [], [], ⟨false, false⟩⟩ :
      ConState) 'x' ⟨"g", Except.ok "", ⟨0, ""⟩⟩).phase = Phase.Recovering :=
  ⟨rfl, rfl,
    ((run_failure_policy (initState "a")
      ⟨"g", Except.error (ExecuteError.CompileError "m"), ⟨0, ""⟩⟩
      ⟨"a", ["a"], false, Phase.Recovering, [], [], ⟨false, false⟩⟩ 'x'
      ⟨"g", Except.ok "", ⟨0, ""⟩⟩ rfl rfl (by decide) (by decide) (by decide)).1
      (ExecuteError.CompileError "m") rfl).1,
    ((run_failure_policy (initState "a")
      ⟨"g", Except.error (ExecuteError.CompileError "m"), ⟨0, ""⟩⟩
      ⟨"a", ["a"], false, Phase.Recovering, [], [], ⟨false, false⟩⟩ 'x'
      ⟨"g", Except.ok "", ⟨0, ""⟩⟩ rfl rfl (by decide) (by decide) (by decide)).2.2.2).1⟩

/-- C6: the Edit command never changes history — whether the editor
succeeds or fails, history is exactly what it was; on success the
current candidate is replaced by the trimmed edited text with the edited
provenance flag set, and the next display cycle resets that flag. -/
theorem edit_frame (st : ConState) (env : StepEnv)
    (hph : st.phase = Phase.Reviewing ∨ st.phase = Phase.Recovering) :
    (step st 'e' env).hist = st.hist ∧
    (env.vi.status = 0 →
      (step st 'e' env).program = env.vi.fileAfter.trim ∧
      (step st 'e' env).edited = true ∧
      (displayStep (step st 'e' env)).edited = false) ∧
    (env.vi.status ≠ 0 →
      (step st 'e' env).program = st.program ∧
      (step st 'e' env).edited = st.edited) := by
  have hstep : step st 'e' env = editStep st env.vi := by
    rcases hph with h | h
    · exact step_rev_e st env h
    · exact step_rec_e st env h
  rw [hstep]
  by_cases h0 : env.vi.status = 0
  · refine ⟨?_, fun _ => ⟨?_, ?_, ?_⟩, fun hne => absurd h0 hne⟩ <;>
      simp [editStep, edit_program_with_vi, h0, displayStep]
  · refine ⟨?_, fun heq => absurd heq h0, fun _ => ⟨?_, ?_⟩⟩ <;>
      simp [editStep, edit_program_with_vi, h0]

/-- Witness for C6: a successful edit replaces the candidate with the
trimmed text and leaves the singleton history untouched. -/
theorem edit_frame_witness :
    ((initState "a").phase = Phase.Reviewing ∨
      (initState "a").phase = Phase.Recovering) ∧
    (⟨"g", Except.ok "", ⟨0, " x "⟩⟩ : StepEnv).vi.status = 0 ∧
    (step (initState "a") 'e' ⟨"g", Except.ok "", ⟨0, " x "⟩⟩).hist
      = (initState "a").hist ∧
    (step (initState "a") 'e' ⟨"g", Except.ok "", ⟨0, " x "⟩⟩).program = " x ".trim :=
  ⟨Or.inl rfl, rfl,
    (edit_frame (initState "a") ⟨"g", Except.ok "", ⟨0, " x "⟩⟩ (Or.inl rfl)).1,
    ((edit_frame (initState "a") ⟨"g", Except.ok "", ⟨0, " x "⟩⟩ (Or.inl rfl)).2.1
      rfl).1⟩

/-- C5 (code bug evidence): when the vi subprocess exits with a non-zero
status, `edit_program_with_vi` does return an error carrying that status
and the calling loop leaves the current candidate unchanged — but the
early return precedes the LeaveAlternateScreen calls, so both streams
are left in alternate-screen mode when the error is surfaced, contrary
to the restoration the specification requires on every path. -/
theorem edit_error_keeps_alt_screen :
    edit_program_with_vi "prog" ⟨1, "after"⟩ ⟨false, false⟩
      = (Except.error (viErrMsg 1), ⟨true, true⟩) ∧
    (editStep (initState "prog") ⟨1, "after"⟩).program = "prog" ∧
    (editStep (initState "prog") ⟨1, "after"⟩).hist = ["prog"] ∧
    (editStep (initState "prog") ⟨1, "after"⟩).screen = ⟨true, true⟩ :=
  ⟨rfl, rfl, rfl, rfl⟩

/-- In the reviewing prompt, q terminates the loop without error. -/
theorem step_rev_q (st : ConState) (env : StepEnv) (h : st.phase = Phase.Reviewing) :
    step st 'q' env = { st with phase := Phase.DoneQuit } := by
  have hy : ¬ ('q' : Char) = 'y' := by decide
  have hr : ¬ ('q' : Char) = 'r' := by decide
  have he : ¬ ('q' : Char) = 'e' := by decide
  simp [step, h, hy, hr, he]

/-- In the reviewing prompt, any other character only reports invalid
input and keeps reviewing. -/
theorem step_rev_other (st : ConState) (env : StepEnv) (c : Char)
    (h : st.phase = Phase.Reviewing)
    (hy : ¬ c = 'y') (hr : ¬ c = 'r') (he : ¬ c = 'e') (hq : ¬ c = 'q') :
    step st c env = { st with stderrLines := st.stderrLines ++
      ["Invalid input; enter y, q, r, or e."] } := by
  simp [step, h, hy, hr, he, hq]

/-- One dispatch step preserves the primary-stream exactness invariant
from any live phase with an empty primary stream. -/
theorem step_stdout (st : ConState) (c : Char) (env : StepEnv)
    (hph : st.phase = Phase.Reviewing ∨ st.phase = Phase.Recovering)
    (h0 : st.stdoutLines = []) : stdoutInv (step st c env) := by
  have hregen : stdoutInv (regenStep st env.gen) := by
    unfold regenStep
    split_ifs <;> exact Or.inr ⟨by simp, by simp [h0]⟩
  have hedit : stdoutInv (editStep st env.vi) := by
    by_cases hs : env.vi.status = 0
    · exact Or.inr ⟨by simp [editStep, edit_program_with_vi, hs],
        by simp [editStep, edit_program_with_vi, hs, h0]⟩
    · refine Or.inr ⟨?_, by simp [editStep, edit_program_with_vi, hs, h0]⟩
      rcases hph with h | h <;> simp [editStep, edit_program_with_vi, hs, h]
  have hquit : stdoutInv ({ st with phase := Phase.DoneQuit }) :=
    Or.inr ⟨by simp, by simp [h0]⟩
  rcases hph with h | h
  · by_cases hy : c = 'y'
    · subst hy
      rw [step_rev_y st env h]
      cases hres : env.execResult with
      | ok v =>
        exact Or.inl ⟨by simp [runStep, hres], v, by simp [runStep, hres, h0]⟩
      | error e =>
        exact Or.inr ⟨by simp [runStep, hres], by simp [runStep, hres, h0]⟩
    · by_cases hr : c = 'r'
      · subst hr
        rw [step_rev_r st env h]
        exact hregen
      · by_cases he : c = 'e'
        · subst he
          rw [step_rev_e st env h]
          exact hedit
        · by_cases hq : c = 'q'
          · subst hq
            rw [step_rev_q st env h]
            exact hquit
          · rw [step_rev_other st env c h hy hr he hq]
            exact Or.inr ⟨by simp [h], by simp [h0]⟩
  · by_cases hr : c = 'r'
    · subst hr
      rw [step_rec_r st env h]
      exact hregen
    · by_cases he : c = 'e'
      · subst he
        rw [step_rec_e st env h]
        exact hedit
      · by_cases hq : c = 'q'
        · subst hq
          rw [step_rec_q st env h]
          exact hquit
        · rw [step_rec_other st env c h hr he hq]
          exact Or.inr ⟨by simp [h], by simp [h0]⟩

/-- Driving the loop preserves the primary-stream exactness
invariant. -/
theorem runLoop_stdout (inputs : List (Char × StepEnv)) (st : ConState)
    (h : stdoutInv st) : stdoutInv (runLoop st inputs) := by
  induction inputs generalizing st with
  | nil => exact h
  | cons p rest ih =>
    obtain ⟨c, env⟩ := p
    cases hph : st.phase with
    | Reviewing =>
      rw [show runLoop st ((c, env) :: rest)
          = runLoop (step (displayStep st) c env) rest from by simp [runLoop, hph]]
      apply ih
      apply step_stdout
      · left
        simp [displayStep, hph]
      · rcases h with ⟨hd, _⟩ | ⟨_, h0⟩
        · rw [hph] at hd
          simp at hd
        · simp [displayStep, h0]
    | Recovering =>
      rw [show runLoop st ((c, env) :: rest)
          = runLoop (step st c env) rest from by simp [runLoop, hph]]
      apply ih
      apply step_stdout
      · right
        exact hph
      · rcases h with ⟨hd, _⟩ | ⟨_, h0⟩
        · rw [hph] at hd
          simp at hd
        · exact h0
    | DoneSuccess =>
      rw [show runLoop st ((c, env) :: rest) = st from by simp [runLoop, hph]]
      exact h
    | DoneQuit =>
      rw [show runLoop st ((c, env) :: rest) = st from by simp [runLoop, hph]]
      exact h
    | DoneRephrase =>
      rw [show runLoop st ((c, env) :: rest) = st from by simp [runLoop, hph]]
      exact h

/-- C7: over any whole run of the session loop the primary output stream
holds either nothing (the loop quit, hit the rephrase end, failed, or is
still live — every prompt, preview, program display and diagnostic went
to the diagnostic stream) or exactly the one result line of the
successful run that ended the loop. -/
theorem primary_stream_only_result (g0 : String) (inputs : List (Char × StepEnv)) :
    (runLoop (initState g0) inputs).stdoutLines = [] ∨
    ((runLoop (initState g0) inputs).phase = Phase.DoneSuccess ∧
      ∃ v, (runLoop (initState g0) inputs).stdoutLines = [v]) := by
  have h := runLoop_stdout inputs (initState g0)
    (Or.inr ⟨by simp [initState], rfl⟩)
  rcases h with ⟨hd, v, hv⟩ | ⟨_, h0⟩
  · exact Or.inr ⟨hd, v, hv⟩
  · exact Or.inl h0

/-- C8: the synthesizer post-processing appends exactly one reassignment
line when a JSON flag is set — the compact-separator serialization line
when `jsonify_one_line` is set, else the default-formatting
serialization line when `jsonify` is set — and returns the trimmed
completion text unmodified when neither flag is set. -/
theorem postProcess_selects_suffix (text : String) (j : Bool) :
    postProcess text j true = text.trim ++ jsonOneLineSuffix ∧
    postProcess text true false = text.trim ++ jsonSuffix ∧
    postProcess text false false = text.trim ∧
    jsonOneLineSuffix
      = "\nimport json; result = json.dumps(result, separators=(',', ':'))" ∧
    jsonSuffix = "\nimport json; result = json.dumps(result)" := by
  refine ⟨?_, ?_, ?_, rfl, rfl⟩ <;> simp [postProcess]

/-- C9: every exit of the raw command reader leaves raw mode disabled —
an accepted character is returned after raw mode is restored, and an
interrupt combination prints its notice and exits with code 0 after
restoring raw mode — while any key outside the accepted set is ignored
and polling continues. -/
theorem prompt_discipline (keys : List KeyInput) (k : KeyInput)
    (rest : List KeyInput) (hk : ignoredKey k = true) :
    exitsClean (promptLoop keys) = true ∧
    promptLoop (k :: rest) = promptLoop rest := by
  constructor
  · induction keys with
    | nil => rfl
    | cons k0 ks ih =>
      cases k0 with
      | otherKey => simpa [promptLoop] using ih
      | charKey c ctrl =>
        by_cases h1 : acceptedChar c = true
        · simp [promptLoop, h1, exitsClean]
        · by_cases h2 : (c == 'c' && ctrl) = true
          · simp [promptLoop, h1, h2, exitsClean]
          · by_cases h3 : (c == '\\' && ctrl) = true
            · simp [promptLoop, h1, h2, h3, exitsClean]
            · simpa [promptLoop, h1, h2, h3] using ih
  · cases k with
    | otherKey => rfl
    | charKey c ctrl =>
      have hk2 : (!(acceptedChar c) && !(c == 'c' && ctrl)
          && !(c == '\\' && ctrl)) = true := hk
      rw [Bool.and_eq_true, Bool.and_eq_true] at hk2
      have h1 : acceptedChar c = false := by
        cases hb : acceptedChar c
        · rfl
        · rw [hb] at hk2
          exact absurd hk2.1.1 (by decide)
      have h2 : (c == 'c' && ctrl) = false := by
        cases hb : (c == 'c' && ctrl)
        · rfl
        · rw [hb] at hk2
          exact absurd hk2.1.2 (by decide)
      have h3 : (c == '\\' && ctrl) = false := by
        cases hb : (c == '\\' && ctrl)
        · rfl
        · rw [hb] at hk2
          exact absurd hk2.2 (by decide)
      simp [promptLoop, h1, h2, h3]

/-- Witness for C9: Ctrl+C exits cleanly with code 0, and an unmapped
key is skipped. -/
theorem prompt_discipline_witness :
    ignoredKey KeyInput.otherKey = true ∧
    exitsClean (promptLoop [KeyInput.charKey 'c' true]) = true ∧
    promptLoop [KeyInput.otherKey, KeyInput.charKey 'y' false]
      = promptLoop [KeyInput.charKey 'y' false] :=
  ⟨by decide,
    (prompt_discipline [KeyInput.charKey 'c' true] KeyInput.otherKey
      [KeyInput.charKey 'y' false] (by decide)).1,
    (prompt_discipline [KeyInput.charKey 'c' true] KeyInput.otherKey
      [KeyInput.charKey 'y' false] (by decide)).2⟩

/-- C10: on a successful completion response with an empty choice list,
`generate_program` panics (modelled as `none`) instead of returning an
error value; it returns normally exactly when at least one choice is
present. -/
theorem generate_program_post_empty_choices (j jol : Bool) (c : Choice)
    (cs : List Choice) :
    generate_program_post [] j jol = none ∧
    generate_program_post (c :: cs) j jol = some (postProcess c.text j jol) :=
  ⟨rfl, rfl⟩
